import Mathlib

/-!
Verification of the TechTrack record store and lifecycle engine
(`src/app.py`).  The remote spreadsheet is modelled as a list of raw
rows (lists of string cells); `get_all_records` interprets the first
row as column headers, as gspread does.  Each Python helper
(`read_sheet`, `append_row`, `update_cell_by_id`) and each lifecycle
operation (`do_action`, report submit, report triage, registration,
seeding) is translated to a pure function on this model.  Network
failure of the underlying client is modelled with `Except`:
operations written without a handler are embedded in the `Except`
monad, and `read_sheet` (which wraps its body in a broad handler
returning an empty DataFrame) is embedded as a total function on the
fetch outcome.
-/

namespace TechTrack

abbrev Cell := String

abbrev RawRow := List Cell

/-- A record as produced by gspread `get_all_records`: an association
list from column header to cell value, in header order. -/
abbrev Rec := List (String × String)

/-- A worksheet: the raw grid, a list of rows of string cells.
Row 1 (index 0) holds the column headers once written. -/
structure Sheet where
  rows : List RawRow
deriving DecidableEq, Repr

/-- gspread pairing of the header row with one data row; short data
rows are padded with the empty string, extra cells beyond the headers
are dropped (gspread default behaviour). -/
def zipRecord : List String → List String → Rec
  | [], _ => []
  | h :: hs, [] => (h, "") :: zipRecord hs []
  | h :: hs, v :: vs => (h, v) :: zipRecord hs vs

/-- `ws.get_all_values()`. -/
def Sheet.getAllValues (s : Sheet) : List RawRow := s.rows

/-- `ws.row_values(1)`: the header row (empty list on an empty sheet). -/
def Sheet.rowValues1 (s : Sheet) : RawRow := s.rows.headD []

/-- `ws.get_all_records()`: first row are the keys, remaining rows the
records. -/
def Sheet.getAllRecords (s : Sheet) : List Rec :=
  match s.rows with
  | [] => []
  | h :: data => data.map (zipRecord h)

/-- `ws.append_row(r)`. -/
def Sheet.appendRowRaw (s : Sheet) (r : RawRow) : Sheet := ⟨s.rows ++ [r]⟩

/-- `ws.update_cell(rowNum, colNum, v)` with 1-based indices, as used by
`update_cell_by_id` (which always targets an existing cell). -/
def Sheet.updateCell (s : Sheet) (rowNum colNum : Nat) (v : Cell) : Sheet :=
  ⟨s.rows.set (rowNum - 1) ((s.rows.getD (rowNum - 1) []).set (colNum - 1) v)⟩

/-- Python `str(record.get(k))`: the value, or the string rendering of
`None` when the key is absent. -/
def recGetStr (r : Rec) (k : String) : String :=
  match r.lookup k with
  | some v => v
  | none => "None"

/-- Record field access with an explicit default. -/
def recGetD (r : Rec) (k d : String) : String :=
  match r.lookup k with
  | some v => v
  | none => d

/-- Network/auth/rate-limit failure reported by the gspread client. -/
inductive TransportError
  | apiError (msg : String)
deriving DecidableEq, Repr

/-- `read_sheet` (src/app.py lines 66-73): the whole body runs under
`try/except Exception`, so a failing fetch is reported to the UI via
`st.error` and an empty DataFrame is returned; a successful fetch
returns the records unchanged.  The argument is the outcome of the
underlying `get_all_records` network call. -/
def read_sheet (fetch : Except TransportError (List Rec)) : List Rec :=
  match fetch with
  | Except.ok recs => recs
  | Except.error _ => []

/-- `append_row` (lines 75-80): if the sheet is empty, write the
column headers (the dict keys) first, then the data row (the dict
values). -/
def append_row (s : Sheet) (keys vals : List String) : Sheet :=
  if s.rows.isEmpty then (s.appendRowRaw keys).appendRowRaw vals
  else s.appendRowRaw vals

/-- `append_row` in the `Except` monad: the function installs no
exception handler, so a `TransportError` raised by the underlying
client propagates unchanged to the caller. -/
def append_row_checked (fetch : Except TransportError Sheet)
    (keys vals : List String) : Except TransportError Sheet :=
  fetch.bind (fun s => Except.ok (append_row s keys vals))

/-- Python `headers.index(col)`: position of the first occurrence.
The source only calls it after checking `col in headers`. -/
def colIndex : List String → String → Nat
  | [], _ => 0
  | h :: t, k => if h = k then 0 else colIndex t k + 1

/-- `update_cell_by_id` (lines 82-94): scan the records for the first
row whose `idCol` equals `idVal`; update each cell of that row whose
column name occurs in the header row; report `id not found` (here:
`false`) and write nothing otherwise. -/
def update_cell_by_id (s : Sheet) (idCol idVal : String)
    (upd : List (String × String)) : Sheet × Bool :=
  match s.getAllRecords.findIdx? (fun r => recGetStr r idCol == idVal) with
  | some i =>
    (upd.foldl
      (fun sh p =>
        if p.1 ∈ s.rowValues1 then
          sh.updateCell (i + 2) (colIndex s.rowValues1 p.1 + 1) p.2
        else sh)
      s, true)
  | none => (s, false)

/-- `update_cell_by_id` in the `Except` monad: no handler, so a
`TransportError` from the client propagates unchanged. -/
def update_cell_by_id_checked (fetch : Except TransportError Sheet)
    (idCol idVal : String) (upd : List (String × String)) :
    Except TransportError (Sheet × Bool) :=
  fetch.bind (fun s => Except.ok (update_cell_by_id s idCol idVal upd))

def itemHeaders : List String :=
  ["item_id", "name", "category", "location", "status", "registered_by",
   "registered_at", "notes"]

def usageHeaders : List String :=
  ["log_id", "item_id", "item_name", "technician", "action", "timestamp",
   "notes"]

def reportHeaders : List String :=
  ["report_id", "submitted_by", "title", "description", "priority", "status",
   "assigned_to", "created_at", "updated_at", "resolution"]

def userHeaders : List String :=
  ["user_id", "name", "role", "email"]

/-- The four worksheets of the spreadsheet. -/
structure Store where
  items : Sheet
  usage : Sheet
  reports : Sheet
  users : Sheet
deriving DecidableEq, Repr

/-- The two `do_action` actions: `"use"` (checkout) and `"return"`. -/
inductive ActKind
  | use
  | ret
deriving DecidableEq, Repr

/-- Outcome of `do_action`: the item id is missing from the snapshot,
the status precondition fails (with the offending current status), or
the operation completed.  The source has no further outcome: in
particular no `Contention` outcome exists. -/
inductive DoResult
  | notFound
  | invalidTransition (current : String)
  | success
deriving DecidableEq, Repr

def actionLabel : ActKind → String
  | ActKind.use => "CHECK OUT"
  | ActKind.ret => "RETURN"

/-- `do_action` (lines 320-353), the checkout/return engine.
`snapshot` is the `items` DataFrame read by `read_sheet("Items")` when
the page rendered; `st` is the live store at click time.  The status
check runs against the snapshot; on success the live Items sheet is
overwritten unconditionally via `update_cell_by_id` and one usage-log
row is appended.  `log_id` and `ts` stand for the generated uuid and
`datetime.now()` strings. -/
def do_action (snapshot : List Rec) (st : Store) (item_id : String)
    (act : ActKind) (tech notes_val log_id ts : String) : Store × DoResult :=
  match snapshot.find? (fun r => recGetD r "item_id" "" == item_id) with
  | none => (st, DoResult.notFound)
  | some row =>
    let current := recGetD row "status" ""
    if act = ActKind.use ∧ current ≠ "available" then
      (st, DoResult.invalidTransition current)
    else if act = ActKind.ret ∧ current ≠ "in_use" then
      (st, DoResult.invalidTransition current)
    else
      let new_status := if act = ActKind.use then "in_use" else "available"
      let items' := (update_cell_by_id st.items "item_id" item_id
        [("status", new_status)]).1
      let logVals : List String :=
        [log_id, item_id, recGetD row "name" "", tech, actionLabel act, ts,
         notes_val]
      ({ st with items := items', usage := append_row st.usage usageHeaders logVals },
       DoResult.success)

/-- `page_register_item` write path (lines 269-288): empty name is a
validation error and writes nothing, otherwise one Items row is
appended with status `available`. -/
def registerItem (st : Store) (item_id name category location notes tech now :
    String) : Store :=
  if name = "" then st
  else
    { st with items := append_row st.items itemHeaders [item_id, name, category, location, "available", tech, now, notes] }

/-- `page_submit_report` write path (lines 541-560): empty title or
description is a validation error and writes nothing; otherwise one
Reports row is appended (status `open`, unassigned, fresh timestamps)
and the fresh report id is surfaced. -/
def submitReport (st : Store) (name title description priority rep_id now :
    String) : Store × Option String :=
  if title = "" ∨ description = "" then (st, none)
  else
    ({ st with reports := append_row st.reports reportHeaders [rep_id, name, title, description, priority, "open", "", now, "", ""] },
     some rep_id)

/-- The four-field update dict passed by the triage page. -/
def triageFields (new_status tech resolution now : String) :
    List (String × String) :=
  [("status", new_status), ("assigned_to", tech), ("resolution", resolution),
   ("updated_at", now)]

/-- `page_manage_reports` update path (lines 495-504): an unconditional
`update_cell_by_id` on the Reports sheet setting status, assignee,
resolution and updated_at together. -/
def triageUpdate (st : Store) (rep_id new_status tech resolution now : String) :
    Store × Bool :=
  let r := update_cell_by_id st.reports "report_id" rep_id
    (triageFields new_status tech resolution now)
  ({ st with reports := r.1 }, r.2)

def demoUsers : List (List String) :=
  [["U001", "Ahmad Technician", "technician", "ahmad@tech.com"],
   ["U002", "Siti Technician", "technician", "siti@tech.com"],
   ["U003", "Ali User", "user", "ali@user.com"],
   ["U004", "Nurul User", "user", "nurul@user.com"]]

/-- `seed_users` (lines 113-124). -/
def seedUsers (st : Store) : Store :=
  if (read_sheet (Except.ok st.users.getAllRecords)).isEmpty then
    { st with users := demoUsers.foldl (fun sh u => append_row sh userHeaders u) st.users }
  else st

def initHeadersOne (s : Sheet) (h : List String) : Sheet :=
  if s.rows.isEmpty then s.appendRowRaw h else s

/-- `init_sheet_headers` (lines 96-111). -/
def init_sheet_headers (st : Store) : Store :=
  { items := initHeadersOne st.items itemHeaders,
    usage := initHeadersOne st.usage usageHeaders,
    reports := initHeadersOne st.reports reportHeaders,
    users := initHeadersOne st.users userHeaders }

/-- Every state-changing operation the source performs against the
spreadsheet, with its nondeterministic inputs (ids, timestamps, user
text) as parameters. -/
inductive Op
  | register (item_id name category location notes tech now : String)
  | scanAction (snapshot : List Rec) (item_id : String) (act : ActKind)
      (tech notes_val log_id ts : String)
  | submit (name title description priority rep_id now : String)
  | triage (rep_id new_status tech resolution now : String)
  | seed
  | initHeaders

def applyOp (st : Store) : Op → Store
  | Op.register a b c d e f g => registerItem st a b c d e f g
  | Op.scanAction snap iid k t n l ts => (do_action snap st iid k t n l ts).1
  | Op.submit a b c d e f => (submitReport st a b c d e f).1
  | Op.triage a b c d e => (triageUpdate st a b c d e).1
  | Op.seed => seedUsers st
  | Op.initHeaders => init_sheet_headers st

theorem append_row_rows (s : Sheet) (keys vals : List String) :
    (append_row s keys vals).rows
      = s.rows ++ if s.rows.isEmpty then [keys, vals] else [vals] := by
  unfold append_row Sheet.appendRowRaw
  by_cases h : s.rows.isEmpty <;> simp [h]

theorem getAllRecords_append_row (s : Sheet) (keys vals : List String)
    (hhdr : s.rows = [] ∨ s.rows.headD [] = keys) :
    (append_row s keys vals).getAllRecords
      = s.getAllRecords ++ [zipRecord keys vals] := by
  cases hr : s.rows with
  | nil => simp [append_row, Sheet.appendRowRaw, hr, Sheet.getAllRecords]
  | cons hd tl =>
    have hk : hd = keys := by
      rcases hhdr with h | h
      · simp [hr] at h
      · simpa [hr] using h
    subst hk
    simp [append_row, Sheet.appendRowRaw, hr, Sheet.getAllRecords]

/-- C9: appending a record to a table with zero rows writes the column
headers (the record's keys) as the first row before the data row, and
the appended record is visible to a subsequent read of the same sheet
(`read_sheet` over the post-state returns exactly the new record). -/
theorem append_row_empty_writes_headers (s : Sheet) (keys vals : List String)
    (h : s.rows = []) :
    (append_row s keys vals).rows = [keys, vals] ∧
    read_sheet (Except.ok (append_row s keys vals).getAllRecords)
      = [zipRecord keys vals] := by
  constructor
  · simp [append_row, Sheet.appendRowRaw, h]
  · simp [read_sheet, append_row, Sheet.appendRowRaw, h, Sheet.getAllRecords]

/-- Witness for C9 at a concrete empty sheet. -/
theorem append_row_empty_writes_headers_witness :
    (append_row ⟨[]⟩ usageHeaders ["L1", "ITM-1", "Multimeter", "Ahmad Technician", "CHECK OUT", "2025-01-01 09:00", ""]).rows
      = [usageHeaders, ["L1", "ITM-1", "Multimeter", "Ahmad Technician", "CHECK OUT", "2025-01-01 09:00", ""]] ∧
    read_sheet (Except.ok (append_row ⟨[]⟩ usageHeaders ["L1", "ITM-1", "Multimeter", "Ahmad Technician", "CHECK OUT", "2025-01-01 09:00", ""]).getAllRecords)
      = [zipRecord usageHeaders ["L1", "ITM-1", "Multimeter", "Ahmad Technician", "CHECK OUT", "2025-01-01 09:00", ""]] :=
  append_row_empty_writes_headers ⟨[]⟩ _ _ rfl

/-- C5 counterexample: the read path does not propagate a
`TransportError`.  `read_sheet` wraps the fetch in a broad exception
handler and returns an empty DataFrame, so the calling engine receives
`[]` — indistinguishable from a successful read of an empty table —
instead of the error. -/
theorem read_sheet_swallows_transport_error :
    read_sheet (Except.error (TransportError.apiError "rate limited"))
      = ([] : List Rec) ∧
    read_sheet (Except.error (TransportError.apiError "rate limited"))
      = read_sheet (Except.ok ([] : List Rec)) :=
  ⟨rfl, rfl⟩

/-- C5 amended: a `TransportError` raised during a write
(`append_row`, `update_cell_by_id`, which install no handler)
propagates unchanged to the caller, but a `TransportError` raised
during a read is caught by `read_sheet`, which reports it to the UI
and returns an empty table to the caller. -/
theorem transport_error_policy (e : TransportError) (keys vals : List String)
    (idCol idVal : String) (upd : List (String × String)) :
    read_sheet (Except.error e) = ([] : List Rec) ∧
    append_row_checked (Except.error e) keys vals = Except.error e ∧
    update_cell_by_id_checked (Except.error e) idCol idVal upd
      = Except.error e :=
  ⟨rfl, rfl, rfl⟩

/-- C8: the Usage_Log sheet is append-only across every operation of
the system: the prior rows are always an initial segment of the
posterior rows, so no existing entry is updated or deleted and the
log's order is insertion order. -/
theorem usage_log_append_only (st : Store) (op : Op) :
    ∃ t, (applyOp st op).usage.rows = st.usage.rows ++ t := by
  cases op with
  | register a b c d e f g =>
    refine ⟨[], ?_⟩
    simp only [applyOp, registerItem]
    split <;> simp
  | scanAction snap iid k t n l ts =>
    simp only [applyOp, do_action]
    cases snap.find? (fun r => recGetD r "item_id" "" == iid) with
    | none => exact ⟨[], by simp⟩
    | some row =>
      simp only []
      split
      · exact ⟨[], by simp⟩
      · split
        · exact ⟨[], by simp⟩
        · exact ⟨_, append_row_rows st.usage usageHeaders _⟩
  | submit a b c d e f =>
    refine ⟨[], ?_⟩
    simp only [applyOp, submitReport]
    split <;> simp
  | triage a b c d e => exact ⟨[], by simp [applyOp, triageUpdate]⟩
  | seed =>
    refine ⟨[], ?_⟩
    simp only [applyOp, seedUsers]
    split <;> simp
  | initHeaders =>
    simp only [applyOp, init_sheet_headers, initHeadersOne]
    split
    · exact ⟨[usageHeaders], by simp [Sheet.appendRowRaw]⟩
    · exact ⟨[], by simp⟩

/-- C7: `submit` rejects an empty title or description with a
validation error and writes nothing; otherwise it appends exactly one
new Report record with status `open`, empty assignee, the creation
timestamp set, empty updated_at and resolution, and returns the fresh
report id.  The other three sheets are untouched. -/
theorem submitReport_spec (st : Store)
    (name title description priority rep_id now : String)
    (hhdr : st.reports.rows = [] ∨ st.reports.rows.headD [] = reportHeaders) :
    (title = "" ∨ description = "" →
      submitReport st name title description priority rep_id now = (st, none)) ∧
    (title ≠ "" → description ≠ "" →
      (submitReport st name title description priority rep_id now).2 = some rep_id ∧
      (submitReport st name title description priority rep_id now).1.items = st.items ∧
      (submitReport st name title description priority rep_id now).1.usage = st.usage ∧
      (submitReport st name title description priority rep_id now).1.users = st.users ∧
      (submitReport st name title description priority rep_id now).1.reports.getAllRecords
        = st.reports.getAllRecords ++
          [[("report_id", rep_id), ("submitted_by", name), ("title", title),
            ("description", description), ("priority", priority),
            ("status", "open"), ("assigned_to", ""), ("created_at", now),
            ("updated_at", ""), ("resolution", "")]]) := by
  constructor
  · intro h
    simp [submitReport, h]
  · intro ht hd
    have hc : ¬(title = "" ∨ description = "") := by
      rintro (h | h) <;> [exact ht h; exact hd h]
    refine ⟨?_, ?_, ?_, ?_, ?_⟩ <;>
      simp only [submitReport, if_neg hc]
    have := getAllRecords_append_row st.reports reportHeaders
      [rep_id, name, title, description, priority, "open", "", now, "", ""] hhdr
    rw [this]
    rfl

def emptyStore : Store := ⟨⟨[]⟩, ⟨[]⟩, ⟨[]⟩, ⟨[]⟩⟩

/-- Witness for C7: a concrete successful submission and its record. -/
theorem submitReport_spec_witness :
    (submitReport emptyStore "Ali User" "Line 3 down" "Conveyor stopped" "high" "RPT-1" "2025-01-02 10:00").2 = some "RPT-1" ∧
    (submitReport emptyStore "Ali User" "Line 3 down" "Conveyor stopped" "high" "RPT-1" "2025-01-02 10:00").1.reports.getAllRecords
      = [[("report_id", "RPT-1"), ("submitted_by", "Ali User"), ("title", "Line 3 down"),
          ("description", "Conveyor stopped"), ("priority", "high"),
          ("status", "open"), ("assigned_to", ""), ("created_at", "2025-01-02 10:00"),
          ("updated_at", ""), ("resolution", "")]] := by
  have h := (submitReport_spec emptyStore "Ali User" "Line 3 down" "Conveyor stopped"
    "high" "RPT-1" "2025-01-02 10:00" (Or.inl rfl)).2 (by decide) (by decide)
  exact ⟨h.1, h.2.2.2.2⟩

/-- C2: in a sequential call (the snapshot is the current Items
table), checkout fails with NotFound on an unknown id, fails with
InvalidTransition when the first matching record's status is not
`available` (symmetrically `in_use` for return), and in every failure
the store — item rows and usage log alike — is returned unchanged;
checkout succeeds only if the matching record's status is `available`,
return only if it is `in_use`. -/
theorem do_action_preconditions (st : Store)
    (item_id tech notes_val log_id ts : String) :
    (st.items.getAllRecords.find? (fun r => recGetD r "item_id" "" == item_id) = none →
      ∀ k : ActKind,
        do_action st.items.getAllRecords st item_id k tech notes_val log_id ts
          = (st, DoResult.notFound)) ∧
    (∀ row, st.items.getAllRecords.find? (fun r => recGetD r "item_id" "" == item_id) = some row →
      recGetD row "status" "" ≠ "available" →
      do_action st.items.getAllRecords st item_id ActKind.use tech notes_val log_id ts
        = (st, DoResult.invalidTransition (recGetD row "status" ""))) ∧
    (∀ row, st.items.getAllRecords.find? (fun r => recGetD r "item_id" "" == item_id) = some row →
      recGetD row "status" "" ≠ "in_use" →
      do_action st.items.getAllRecords st item_id ActKind.ret tech notes_val log_id ts
        = (st, DoResult.invalidTransition (recGetD row "status" ""))) ∧
    ((do_action st.items.getAllRecords st item_id ActKind.use tech notes_val log_id ts).2
        = DoResult.success →
      ∃ row, st.items.getAllRecords.find? (fun r => recGetD r "item_id" "" == item_id) = some row ∧
        recGetD row "status" "" = "available") ∧
    ((do_action st.items.getAllRecords st item_id ActKind.ret tech notes_val log_id ts).2
        = DoResult.success →
      ∃ row, st.items.getAllRecords.find? (fun r => recGetD r "item_id" "" == item_id) = some row ∧
        recGetD row "status" "" = "in_use") := by
  refine ⟨?_, ?_, ?_, ?_, ?_⟩
  · intro h k
    simp [do_action, h]
  · intro row hr hs
    simp [do_action, hr, hs]
  · intro row hr hs
    simp [do_action, hr, hs]
  · intro h
    cases hfind : st.items.getAllRecords.find? (fun r => recGetD r "item_id" "" == item_id) with
    | none => simp [do_action, hfind] at h
    | some row =>
      refine ⟨row, rfl, ?_⟩
      by_contra hs
      simp [do_action, hfind, hs] at h
  · intro h
    cases hfind : st.items.getAllRecords.find? (fun r => recGetD r "item_id" "" == item_id) with
    | none => simp [do_action, hfind] at h
    | some row =>
      refine ⟨row, rfl, ?_⟩
      by_contra hs
      simp [do_action, hfind, hs] at h

def itemsAvail : Sheet :=
  ⟨[itemHeaders, ["ITM-1", "Multimeter", "Tools", "Rack A", "available", "Ahmad Technician", "2025-01-01 09:00", ""]]⟩

def storeAvail : Store := ⟨itemsAvail, ⟨[]⟩, ⟨[]⟩, ⟨[]⟩⟩

def itemsInUse : Sheet :=
  ⟨[itemHeaders, ["ITM-1", "Multimeter", "Tools", "Rack A", "in_use", "Ahmad Technician", "2025-01-01 09:00", ""]]⟩

def storeInUse : Store := ⟨itemsInUse, ⟨[]⟩, ⟨[]⟩, ⟨[]⟩⟩

/-- Witness for C2: a concrete unknown-id failure and a concrete
checkout attempt on an item already in use. -/
theorem do_action_preconditions_witness :
    do_action storeInUse.items.getAllRecords storeInUse "ITM-404" ActKind.use
        "Ahmad Technician" "" "L1" "2025-01-01 10:00"
      = (storeInUse, DoResult.notFound) ∧
    do_action storeInUse.items.getAllRecords storeInUse "ITM-1" ActKind.use
        "Ahmad Technician" "" "L1" "2025-01-01 10:00"
      = (storeInUse, DoResult.invalidTransition "in_use") := by
  constructor
  · exact (do_action_preconditions storeInUse "ITM-404" "Ahmad Technician" ""
      "L1" "2025-01-01 10:00").1 (by decide) ActKind.use
  · have h := (do_action_preconditions storeInUse "ITM-1" "Ahmad Technician" ""
      "L1" "2025-01-01 10:00").2.1
      (zipRecord itemHeaders ["ITM-1", "Multimeter", "Tools", "Rack A", "in_use", "Ahmad Technician", "2025-01-01 09:00", ""])
      (by decide) (by decide)
    have hst : recGetD (zipRecord itemHeaders ["ITM-1", "Multimeter", "Tools", "Rack A", "in_use", "Ahmad Technician", "2025-01-01 09:00", ""]) "status" "" = "in_use" := by decide
    rwa [hst] at h

/-- C3: every successful `do_action` appends exactly one Usage_Log
record, carrying the fresh log id, the item id operated on, the
snapshot of the item's name, the acting technician, the action label
(`CHECK OUT` for checkout, `RETURN` for return) and the timestamp. -/
theorem do_action_appends_one_log_entry (snapshot : List Rec) (st : Store)
    (item_id : String) (k : ActKind) (tech notes_val log_id ts : String)
    (row : Rec)
    (hhdr : st.usage.rows = [] ∨ st.usage.rows.headD [] = usageHeaders)
    (hrow : snapshot.find? (fun r => recGetD r "item_id" "" == item_id) = some row)
    (st' : Store)
    (hsucc : do_action snapshot st item_id k tech notes_val log_id ts
      = (st', DoResult.success)) :
    st'.usage.getAllRecords
      = st.usage.getAllRecords ++
        [[("log_id", log_id), ("item_id", item_id),
          ("item_name", recGetD row "name" ""), ("technician", tech),
          ("action", actionLabel k), ("timestamp", ts), ("notes", notes_val)]] ∧
    actionLabel ActKind.use = "CHECK OUT" ∧ actionLabel ActKind.ret = "RETURN" := by
  refine ⟨?_, rfl, rfl⟩
  simp only [do_action, hrow] at hsucc
  by_cases h1 : k = ActKind.use ∧ recGetD row "status" "" ≠ "available"
  · simp [h1] at hsucc
  · by_cases h2 : k = ActKind.ret ∧ recGetD row "status" "" ≠ "in_use"
    · simp [h1, h2] at hsucc
    · simp only [if_neg h1, if_neg h2, Prod.mk.injEq] at hsucc
      have husage : st'.usage = append_row st.usage usageHeaders
          [log_id, item_id, recGetD row "name" "", tech, actionLabel k, ts, notes_val] := by
        rw [← hsucc.1]
      rw [husage, getAllRecords_append_row st.usage usageHeaders _ hhdr]
      rfl

def checkoutRace1 : Store × DoResult :=
  do_action storeAvail.items.getAllRecords storeAvail "ITM-1" ActKind.use
    "Ahmad Technician" "" "L1" "2025-01-01 10:00"

def checkoutRace2 : Store × DoResult :=
  do_action storeAvail.items.getAllRecords checkoutRace1.1 "ITM-1" ActKind.use
    "Siti Technician" "" "L2" "2025-01-01 10:01"

/-- Witness for C3: the concrete checkout of `ITM-1` appends exactly
the one CHECK OUT record. -/
theorem do_action_appends_one_log_entry_witness :
    checkoutRace1.1.usage.getAllRecords
      = [[("log_id", "L1"), ("item_id", "ITM-1"), ("item_name", "Multimeter"),
          ("technician", "Ahmad Technician"), ("action", "CHECK OUT"),
          ("timestamp", "2025-01-01 10:00"), ("notes", "")]] ∧
    actionLabel ActKind.use = "CHECK OUT" ∧ actionLabel ActKind.ret = "RETURN" := by
  have h := do_action_appends_one_log_entry storeAvail.items.getAllRecords
    storeAvail "ITM-1" ActKind.use "Ahmad Technician" "" "L1" "2025-01-01 10:00"
    (zipRecord itemHeaders ["ITM-1", "Multimeter", "Tools", "Rack A", "available", "Ahmad Technician", "2025-01-01 09:00", ""])
    (Or.inl rfl) (by decide) checkoutRace1.1 (by decide)
  exact ⟨by rw [h.1]; decide, rfl, rfl⟩

/-- C1 (code evaluated at the failing input): two checkout calls race
on the same available item — both pages read the same Items snapshot
before either wrote, as happens with two concurrent technicians.  BOTH
calls return success: the source has no compare-and-update and no
Contention outcome at all (`DoResult` has no such constructor), the
second call blindly overwrites the status, and TWO `CHECK OUT` usage
entries are appended instead of exactly one. -/
theorem concurrent_checkouts_both_succeed :
    checkoutRace1.2 = DoResult.success ∧
    checkoutRace2.2 = DoResult.success ∧
    checkoutRace2.1.usage.getAllRecords.map (fun r => recGetD r "action" "")
      = ["CHECK OUT", "CHECK OUT"] ∧
    recGetD (checkoutRace2.1.items.getAllRecords.getD 0 []) "status" ""
      = "in_use" := by
  decide

theorem Sheet.eq_of_rows {a b : Sheet} (h : a.rows = b.rows) : a = b := by
  cases a; cases b; simpa using h

theorem list_getD_set_self {α : Type _} (l : List α) (n : Nat) (v d : α)
    (h : n < l.length) : (l.set n v).getD n d = v := by
  induction l generalizing n with
  | nil => simp at h
  | cons a t ih =>
    cases n with
    | zero => simp
    | succ m => simpa using ih m (by simpa using h)

theorem list_getD_set_ne {α : Type _} (l : List α) (m n : Nat) (v d : α)
    (h : m ≠ n) : (l.set n v).getD m d = l.getD m d := by
  induction l generalizing m n with
  | nil => simp
  | cons a t ih =>
    cases n with
    | zero =>
      cases m with
      | zero => exact absurd rfl h
      | succ k => simp
    | succ q =>
      cases m with
      | zero => simp
      | succ k => simpa using ih k q (fun hh => h (by rw [hh]))

theorem list_set_getD_self {α : Type _} (l : List α) (n : Nat) (d : α)
    (h : n < l.length) : l.set n (l.getD n d) = l := by
  induction l generalizing n with
  | nil => simp at h
  | cons a t ih =>
    cases n with
    | zero => simp
    | succ m => simpa using ih m (by simpa using h)

theorem list_getD_of_length_le {α : Type _} (l : List α) (n : Nat) (d : α)
    (h : l.length ≤ n) : l.getD n d = d := by
  induction l generalizing n with
  | nil => simp
  | cons a t ih =>
    cases n with
    | zero => simp at h
    | succ m => simpa using ih m (by simpa using h)

theorem list_getD_mem {α : Type _} (l : List α) (c : Nat) (d : α)
    (hc : c < l.length) : l.getD c d ∈ l := by
  induction l generalizing c with
  | nil => simp at hc
  | cons a t ih =>
    cases c with
    | zero => simp
    | succ m => simpa using Or.inr (ih m (by simpa using hc))

theorem list_getD_map {α β : Type _} (f : α → β) (l : List α) (i : Nat)
    (d' : β) (d : α) (hi : i < l.length) : (l.map f).getD i d' = f (l.getD i d) := by
  induction l generalizing i with
  | nil => simp at hi
  | cons a t ih =>
    cases i with
    | zero => simp
    | succ m => simpa using ih m (by simpa using hi)

theorem colIndex_lt_length {l : List String} {k : String} (h : k ∈ l) :
    colIndex l k < l.length := by
  induction l with
  | nil => simp at h
  | cons a t ih =>
    by_cases ha : a = k
    · simp [colIndex, ha]
    · have : k ∈ t := by
        rcases List.mem_cons.mp h with h1 | h1
        · exact absurd h1.symm ha
        · exact h1
      simpa [colIndex, ha] using ih this

theorem getD_colIndex {l : List String} {k : String} (h : k ∈ l) :
    l.getD (colIndex l k) "" = k := by
  induction l with
  | nil => simp at h
  | cons a t ih =>
    by_cases ha : a = k
    · simp [colIndex, ha]
    · have : k ∈ t := by
        rcases List.mem_cons.mp h with h1 | h1
        · exact absurd h1.symm ha
        · exact h1
      simpa [colIndex, ha] using ih this

theorem colIndex_of_getD {l : List String} (hH : l.Nodup) {c : Nat}
    (hc : c < l.length) : colIndex l (l.getD c "") = c := by
  induction l generalizing c with
  | nil => simp at hc
  | cons a t ih =>
    rcases List.nodup_cons.mp hH with ⟨hat, ht⟩
    cases c with
    | zero => simp [colIndex]
    | succ m =>
      have hm : m < t.length := by simpa using hc
      have hmem : t.getD m "" ∈ t := list_getD_mem t m "" hm
      have hne : a ≠ t.getD m "" := fun hh => hat (hh ▸ hmem)
      show (if a = t.getD m "" then 0 else colIndex t (t.getD m "") + 1) = m + 1
      rw [if_neg hne, ih ht hm]

/-- The row produced by the update loop of `update_cell_by_id` on the
matched data row: each update pair whose key is a header overwrites
the cell at that header's first position, in order. -/
def updRow (headers : List String) : List (String × String) → RawRow → RawRow
  | [], row => row
  | p :: rest, row =>
    updRow headers rest
      (if p.1 ∈ headers then row.set (colIndex headers p.1) p.2 else row)

theorem updRow_length (headers : List String) (upd : List (String × String))
    (row : RawRow) : (updRow headers upd row).length = row.length := by
  induction upd generalizing row with
  | nil => rfl
  | cons p rest ih =>
    by_cases hp : p.1 ∈ headers
    · simp [updRow, hp, ih]
    · simp [updRow, hp, ih]

theorem foldl_updateCell_rows (headers : List String)
    (upd : List (String × String)) (s : Sheet) (i : Nat)
    (h : i + 1 < s.rows.length) :
    (upd.foldl
      (fun sh p =>
        if p.1 ∈ headers then sh.updateCell (i + 2) (colIndex headers p.1 + 1) p.2
        else sh) s).rows
      = s.rows.set (i + 1) (updRow headers upd (s.rows.getD (i + 1) [])) := by
  induction upd generalizing s with
  | nil => exact (list_set_getD_self _ _ _ h).symm
  | cons p rest ih =>
    rw [List.foldl_cons]
    by_cases hp : p.1 ∈ headers
    · rw [if_pos hp]
      have hlen : i + 1 < (s.updateCell (i + 2) (colIndex headers p.1 + 1) p.2).rows.length := by
        simpa [Sheet.updateCell] using h
      rw [ih _ hlen]
      show _ = s.rows.set (i + 1) (updRow headers (p :: rest) (s.rows.getD (i + 1) []))
      have e1 : i + 2 - 1 = i + 1 := rfl
      have e2 : colIndex headers p.1 + 1 - 1 = colIndex headers p.1 := rfl
      simp only [updRow, if_pos hp, Sheet.updateCell, e1, e2]
      rw [list_getD_set_self _ _ _ _ h, List.set_set]
    · rw [if_neg hp, ih s h]
      simp only [updRow, if_neg hp]

theorem updRow_getD (headers : List String) (upd : List (String × String))
    (row : RawRow) (hH : headers.Nodup) (hU : (upd.map Prod.fst).Nodup)
    (c : Nat) (hc : c < headers.length) (hlen : headers.length ≤ row.length) :
    (updRow headers upd row).getD c ""
      = (upd.lookup (headers.getD c "")).getD (row.getD c "") := by
  induction upd generalizing row with
  | nil => simp [updRow]
  | cons p rest ih =>
    obtain ⟨k, v⟩ := p
    have h0 : (k :: rest.map Prod.fst).Nodup := by
      simpa only [List.map_cons] using hU
    have hpk : k ∉ rest.map Prod.fst := (List.nodup_cons.mp h0).1
    have hU' : (rest.map Prod.fst).Nodup := (List.nodup_cons.mp h0).2
    have hrestnone : rest.lookup k = none := by
      rw [List.lookup_eq_none_iff]
      intro q hq
      simp only [bne_iff_ne, ne_eq]
      intro hkq
      exact hpk (hkq ▸ List.mem_map_of_mem Prod.fst hq)
    by_cases hp : (k, v).1 ∈ headers
    · simp only [updRow, if_pos hp]
      rw [ih _ hU' (by simpa using hlen)]
      by_cases hkc : headers.getD c "" = k
      · have hcc : colIndex headers k = c := by
          rw [← hkc]; exact colIndex_of_getD hH hc
        rw [hkc, hrestnone, List.lookup_cons_self]
        simp only [Option.getD_none, Option.getD_some]
        rw [hcc]
        exact list_getD_set_self row c v "" (lt_of_lt_of_le hc hlen)
      · have hidxne : c ≠ colIndex headers k := by
          intro hh
          apply hkc
          rw [hh]
          exact getD_colIndex hp
        rw [list_getD_set_ne row c (colIndex headers k) v "" hidxne]
        have hb : (headers.getD c "" == k) = false := by
          simpa using hkc
        rw [List.lookup_cons, hb]
    · simp only [updRow, if_neg hp]
      rw [ih _ hU' hlen]
      have hkmem : headers.getD c "" ∈ headers := list_getD_mem headers c "" hc
      have hkc : headers.getD c "" ≠ k := fun hh => hp (hh ▸ hkmem)
      have hb : (headers.getD c "" == k) = false := by simpa using hkc
      rw [List.lookup_cons, hb]

theorem update_cell_by_id_rows (s : Sheet) (idCol idVal : String)
    (upd : List (String × String)) :
    (s.getAllRecords.findIdx? (fun r => recGetStr r idCol == idVal) = none →
      update_cell_by_id s idCol idVal upd = (s, false)) ∧
    (∀ i, s.getAllRecords.findIdx? (fun r => recGetStr r idCol == idVal) = some i →
      i + 1 < s.rows.length ∧
      update_cell_by_id s idCol idVal upd
        = (⟨s.rows.set (i + 1) (updRow s.rowValues1 upd (s.rows.getD (i + 1) []))⟩,
           true)) := by
  constructor
  · intro h
    simp [update_cell_by_id, h]
  · intro i hi
    have hb : i < s.getAllRecords.length :=
      (List.findIdx?_eq_some_iff_getElem.mp hi).fst
    have hrows : i + 1 < s.rows.length := by
      cases hr : s.rows with
      | nil => simp [Sheet.getAllRecords, hr] at hb
      | cons hd tl =>
        simp only [Sheet.getAllRecords, hr, List.length_map, List.length_cons] at hb ⊢
        omega
    refine ⟨hrows, ?_⟩
    simp only [update_cell_by_id, hi]
    refine Prod.ext ?_ rfl
    exact Sheet.eq_of_rows (foldl_updateCell_rows s.rowValues1 upd s i hrows)

/-- C10: `update_cell_by_id` modifies only the first data row whose key
column matches, and within it only the cells of columns that occur
both in the update mapping and in the header row; keys absent from the
header row are silently ignored, every other row and every other cell
of the matched row is unchanged, and without a match nothing is
written. -/
theorem update_cell_by_id_frame (s : Sheet) (idCol idVal : String)
    (upd : List (String × String))
    (hH : s.rowValues1.Nodup) (hU : (upd.map Prod.fst).Nodup)
    (hrect : ∀ r ∈ s.rows, r.length = s.rowValues1.length) :
    (s.getAllRecords.findIdx? (fun r => recGetStr r idCol == idVal) = none →
      update_cell_by_id s idCol idVal upd = (s, false)) ∧
    (∀ i, s.getAllRecords.findIdx? (fun r => recGetStr r idCol == idVal) = some i →
      (update_cell_by_id s idCol idVal upd).2 = true ∧
      (update_cell_by_id s idCol idVal upd).1.rows.length = s.rows.length ∧
      (∀ j, j ≠ i + 1 →
        (update_cell_by_id s idCol idVal upd).1.rows.getD j []
          = s.rows.getD j []) ∧
      ((update_cell_by_id s idCol idVal upd).1.rows.getD (i + 1) []).length
        = (s.rows.getD (i + 1) []).length ∧
      (∀ c, c < s.rowValues1.length →
        ((update_cell_by_id s idCol idVal upd).1.rows.getD (i + 1) []).getD c ""
          = (upd.lookup (s.rowValues1.getD c "")).getD
              ((s.rows.getD (i + 1) []).getD c ""))) := by
  refine ⟨(update_cell_by_id_rows s idCol idVal upd).1, ?_⟩
  intro i hi
  obtain ⟨hrows, heq⟩ := (update_cell_by_id_rows s idCol idVal upd).2 i hi
  have hrowlen : s.rowValues1.length ≤ (s.rows.getD (i + 1) []).length := by
    rw [hrect _ (list_getD_mem s.rows (i + 1) [] hrows)]
  refine ⟨by rw [heq], ?_, ?_, ?_, ?_⟩
  · rw [heq]; simp
  · intro j hj
    rw [heq]
    exact list_getD_set_ne _ _ _ _ _ hj
  · rw [heq]
    simp only []
    rw [list_getD_set_self _ _ _ _ hrows]
    exact updRow_length _ _ _
  · intro c hc
    rw [heq]
    simp only []
    rw [list_getD_set_self _ _ _ _ hrows]
    exact updRow_getD s.rowValues1 upd _ hH hU c hc hrowlen

def frameSheet : Sheet := ⟨[["id", "a", "b"], ["1", "x", "y"], ["2", "p", "q"]]⟩

/-- Witness for C10 at a concrete two-row sheet: the update of row
`"2"` leaves row `"1"` untouched, reports success, and the updated
cell carries the looked-up value. -/
theorem update_cell_by_id_frame_witness :
    (update_cell_by_id frameSheet "id" "2" [("b", "z"), ("missing", "w")]).2 = true ∧
    (update_cell_by_id frameSheet "id" "2" [("b", "z"), ("missing", "w")]).1.rows.getD 1 []
      = frameSheet.rows.getD 1 [] ∧
    ((update_cell_by_id frameSheet "id" "2" [("b", "z"), ("missing", "w")]).1.rows.getD 2 []).getD 2 ""
      = (([("b", "z"), ("missing", "w")] : List (String × String)).lookup
          (frameSheet.rowValues1.getD 2 "")).getD ((frameSheet.rows.getD 2 []).getD 2 "") := by
  have h := (update_cell_by_id_frame frameSheet "id" "2" [("b", "z"), ("missing", "w")]
    (by decide) (by decide) (by decide)).2 1 (by decide)
  exact ⟨h.1, h.2.2.1 1 (by decide), h.2.2.2.2 2 (by decide)⟩

theorem list_headD_set_succ {α : Type _} (l : List α) (n : Nat) (x d : α) :
    (l.set (n + 1) x).headD d = l.headD d := by
  cases l <;> simp

theorem getAllRecords_length (s : Sheet) :
    s.getAllRecords.length = s.rows.length - 1 := by
  cases hr : s.rows <;> simp [Sheet.getAllRecords, hr]

theorem getAllRecords_getD (s : Sheet) (i : Nat) (hi : i + 1 < s.rows.length) :
    s.getAllRecords.getD i [] = zipRecord s.rowValues1 (s.rows.getD (i + 1) []) := by
  cases hr : s.rows with
  | nil => rw [hr] at hi; simp at hi
  | cons hd tl =>
    have hlen : i < tl.length := by rw [hr] at hi; simpa using hi
    have h1 : s.getAllRecords = tl.map (zipRecord hd) := by
      simp [Sheet.getAllRecords, hr]
    have h2 : s.rowValues1 = hd := by simp [Sheet.rowValues1, hr]
    have h3 : (hd :: tl).getD (i + 1) [] = tl.getD i [] := by simp
    rw [h1, h2, h3]
    exact list_getD_map (zipRecord hd) tl i [] [] hlen

theorem recGetD_cons_self (k v : String) (r : Rec) (d : String) :
    recGetD ((k, v) :: r) k d = v := by
  simp [recGetD]

theorem recGetD_cons_ne (k v key : String) (r : Rec) (d : String)
    (h : key ≠ k) : recGetD ((k, v) :: r) key d = recGetD r key d := by
  have hb : (key == k) = false := by simpa using h
  simp [recGetD, List.lookup_cons, hb]

theorem zipRecord_recGetD (hs : List String) (row : RawRow) (hH : hs.Nodup)
    (c : Nat) (hc : c < hs.length) :
    recGetD (zipRecord hs row) (hs.getD c "") "" = row.getD c "" := by
  induction hs generalizing row c with
  | nil => simp at hc
  | cons h t ih =>
    rcases List.nodup_cons.mp hH with ⟨hht, ht⟩
    cases c with
    | zero =>
      cases row with
      | nil =>
        show recGetD ((h, "") :: zipRecord t []) ((h :: t).getD 0 "") ""
          = ([] : RawRow).getD 0 ""
        simp [recGetD_cons_self]
      | cons v vs =>
        show recGetD ((h, v) :: zipRecord t vs) ((h :: t).getD 0 "") ""
          = (v :: vs).getD 0 ""
        simp [recGetD_cons_self]
    | succ m =>
      have hm : m < t.length := by simpa using hc
      have hmem : t.getD m "" ∈ t := list_getD_mem t m "" hm
      have hne : t.getD m "" ≠ h := fun hh => hht (hh ▸ hmem)
      have hkey : (h :: t).getD (m + 1) "" = t.getD m "" := by simp
      cases row with
      | nil =>
        show recGetD ((h, "") :: zipRecord t []) ((h :: t).getD (m + 1) "") ""
          = ([] : RawRow).getD (m + 1) ""
        rw [hkey, recGetD_cons_ne _ _ _ _ _ hne, ih [] ht m hm]
        simp
      | cons v vs =>
        show recGetD ((h, v) :: zipRecord t vs) ((h :: t).getD (m + 1) "") ""
          = (v :: vs).getD (m + 1) ""
        rw [hkey, recGetD_cons_ne _ _ _ _ _ hne, ih vs ht m hm]
        simp

theorem updated_record_field (hs : List String) (upd : List (String × String))
    (row : RawRow) (hH : hs.Nodup) (hU : (upd.map Prod.fst).Nodup)
    (c : Nat) (hc : c < hs.length) (hlen : hs.length ≤ row.length) :
    recGetD (zipRecord hs (updRow hs upd row)) (hs.getD c "") ""
      = (upd.lookup (hs.getD c "")).getD (row.getD c "") := by
  rw [zipRecord_recGetD hs _ hH c hc]
  exact updRow_getD hs upd row hH hU c hc hlen

theorem triageFields_lookup (ns tech res now : String) :
    (triageFields ns tech res now).lookup "status" = some ns ∧
    (triageFields ns tech res now).lookup "assigned_to" = some tech ∧
    (triageFields ns tech res now).lookup "resolution" = some res ∧
    (triageFields ns tech res now).lookup "updated_at" = some now ∧
    ∀ k : String, k ≠ "status" → k ≠ "assigned_to" → k ≠ "resolution" →
      k ≠ "updated_at" → (triageFields ns tech res now).lookup k = none := by
  refine ⟨rfl, rfl, rfl, rfl, ?_⟩
  intro k h1 h2 h3 h4
  rw [List.lookup_eq_none_iff]
  intro q hq
  simp only [triageFields, List.mem_cons, List.not_mem_nil, or_false] at hq
  rcases hq with h | h | h | h <;> subst h <;> simp only [bne_iff_ne, ne_eq]
  exacts [h1, h2, h3, h4]

theorem update_cell_by_id_records (s : Sheet) (idCol idVal : String)
    (upd : List (String × String)) (i : Nat)
    (hH : s.rowValues1.Nodup) (hU : (upd.map Prod.fst).Nodup)
    (hrect : ∀ r ∈ s.rows, r.length = s.rowValues1.length)
    (hi : s.getAllRecords.findIdx? (fun r => recGetStr r idCol == idVal) = some i) :
    (update_cell_by_id s idCol idVal upd).2 = true ∧
    (∀ j, j ≠ i →
      (update_cell_by_id s idCol idVal upd).1.getAllRecords.getD j []
        = s.getAllRecords.getD j []) ∧
    (∀ c, c < s.rowValues1.length →
      recGetD ((update_cell_by_id s idCol idVal upd).1.getAllRecords.getD i [])
          (s.rowValues1.getD c "") ""
        = (upd.lookup (s.rowValues1.getD c "")).getD
            (recGetD (s.getAllRecords.getD i []) (s.rowValues1.getD c "") "")) := by
  obtain ⟨hrows, heq⟩ := (update_cell_by_id_rows s idCol idVal upd).2 i hi
  have hlen2 : s.rowValues1.length ≤ (s.rows.getD (i + 1) []).length :=
    le_of_eq (hrect _ (list_getD_mem _ _ _ hrows)).symm
  have hv : ((⟨s.rows.set (i + 1)
        (updRow s.rowValues1 upd (s.rows.getD (i + 1) []))⟩ : Sheet)).rowValues1
      = s.rowValues1 := by
    show (s.rows.set (i + 1) _).headD [] = s.rows.headD []
    exact list_headD_set_succ _ _ _ _
  refine ⟨by rw [heq], ?_, ?_⟩
  · intro j hj
    rw [heq]
    by_cases hjb : j + 1 < s.rows.length
    · rw [getAllRecords_getD _ j (by simpa using hjb), getAllRecords_getD s j hjb,
        hv]
      congr 1
      show (s.rows.set (i + 1) _).getD (j + 1) [] = s.rows.getD (j + 1) []
      exact list_getD_set_ne _ _ _ _ _ (by omega)
    · have hlen3 : s.getAllRecords.length ≤ j := by
        rw [getAllRecords_length]; omega
      have hlen4 : ((⟨s.rows.set (i + 1)
          (updRow s.rowValues1 upd (s.rows.getD (i + 1) []))⟩ : Sheet)).getAllRecords.length ≤ j := by
        rw [getAllRecords_length]
        simp only [List.length_set]
        omega
      rw [list_getD_of_length_le _ _ _ hlen4, list_getD_of_length_le _ _ _ hlen3]
  · intro c hc
    rw [heq]
    rw [getAllRecords_getD _ i (by simpa using hrows), hv]
    rw [show (s.rows.set (i + 1)
        (updRow s.rowValues1 upd (s.rows.getD (i + 1) []))).getD (i + 1) []
        = updRow s.rowValues1 upd (s.rows.getD (i + 1) []) from
      list_getD_set_self _ _ _ _ hrows]
    rw [updated_record_field s.rowValues1 upd _ hH hU c hc hlen2]
    rw [getAllRecords_getD s i hrows, zipRecord_recGetD s.rowValues1 _ hH c hc]

/-- C6: a triage update on an existing report id reports success and
sets status, assigned_to, resolution and updated_at together on the
first matching report record, leaving every other field of that
record, every other record, and the other three sheets unchanged; on a
missing report id it fails with NotFound and writes nothing. -/
theorem triageUpdate_spec (st : Store)
    (rep_id new_status tech resolution now : String)
    (hhdr : st.reports.rowValues1 = reportHeaders)
    (hrect : ∀ r ∈ st.reports.rows, r.length = reportHeaders.length) :
    (st.reports.getAllRecords.findIdx? (fun r => recGetStr r "report_id" == rep_id) = none →
      triageUpdate st rep_id new_status tech resolution now = (st, false)) ∧
    (∀ i, st.reports.getAllRecords.findIdx? (fun r => recGetStr r "report_id" == rep_id) = some i →
      (triageUpdate st rep_id new_status tech resolution now).2 = true ∧
      (triageUpdate st rep_id new_status tech resolution now).1.items = st.items ∧
      (triageUpdate st rep_id new_status tech resolution now).1.usage = st.usage ∧
      (triageUpdate st rep_id new_status tech resolution now).1.users = st.users ∧
      (∀ j, j ≠ i →
        (triageUpdate st rep_id new_status tech resolution now).1.reports.getAllRecords.getD j []
          = st.reports.getAllRecords.getD j []) ∧
      recGetD ((triageUpdate st rep_id new_status tech resolution now).1.reports.getAllRecords.getD i []) "status" "" = new_status ∧
      recGetD ((triageUpdate st rep_id new_status tech resolution now).1.reports.getAllRecords.getD i []) "assigned_to" "" = tech ∧
      recGetD ((triageUpdate st rep_id new_status tech resolution now).1.reports.getAllRecords.getD i []) "resolution" "" = resolution ∧
      recGetD ((triageUpdate st rep_id new_status tech resolution now).1.reports.getAllRecords.getD i []) "updated_at" "" = now ∧
      (∀ k, k ∈ reportHeaders →
        k ∉ (["status", "assigned_to", "resolution", "updated_at"] : List String) →
        recGetD ((triageUpdate st rep_id new_status tech resolution now).1.reports.getAllRecords.getD i []) k ""
          = recGetD (st.reports.getAllRecords.getD i []) k "")) := by
  have hH : st.reports.rowValues1.Nodup := by rw [hhdr]; decide
  have hU : ((triageFields new_status tech resolution now).map Prod.fst).Nodup := by
    show (["status", "assigned_to", "resolution", "updated_at"] : List String).Nodup
    decide
  have hrect2 : ∀ r ∈ st.reports.rows, r.length = st.reports.rowValues1.length := by
    rw [hhdr]; exact hrect
  have hlook := triageFields_lookup new_status tech resolution now
  constructor
  · intro h
    simp only [triageUpdate]
    rw [(update_cell_by_id_rows st.reports "report_id" rep_id
      (triageFields new_status tech resolution now)).1 h]
  · intro i hi
    obtain ⟨h2, hframe, hcell⟩ := update_cell_by_id_records st.reports "report_id"
      rep_id (triageFields new_status tech resolution now) i hH hU hrect2 hi
    simp only [hhdr] at hcell
    have hcell5 := hcell 5 (by decide)
    have hcell6 := hcell 6 (by decide)
    have hcell8 := hcell 8 (by decide)
    have hcell9 := hcell 9 (by decide)
    rw [show reportHeaders.getD 5 "" = "status" from rfl, hlook.1] at hcell5
    rw [show reportHeaders.getD 6 "" = "assigned_to" from rfl, hlook.2.1] at hcell6
    rw [show reportHeaders.getD 8 "" = "updated_at" from rfl, hlook.2.2.2.1] at hcell8
    rw [show reportHeaders.getD 9 "" = "resolution" from rfl, hlook.2.2.1] at hcell9
    refine ⟨h2, rfl, rfl, rfl, hframe, hcell5, hcell6, hcell9, hcell8, ?_⟩
    intro k hk hk4
    have hkne : k ≠ "status" ∧ k ≠ "assigned_to" ∧ k ≠ "resolution" ∧ k ≠ "updated_at" := by
      refine ⟨?_, ?_, ?_, ?_⟩ <;> (intro hkk; apply hk4; rw [hkk]; decide)
    have hnone := hlook.2.2.2.2 k hkne.1 hkne.2.1 hkne.2.2.1 hkne.2.2.2
    simp only [reportHeaders, List.mem_cons, List.not_mem_nil, or_false] at hk
    rcases hk with h | h | h | h | h | h | h | h | h | h <;> subst h <;>
      first
      | (exact absurd rfl hkne.1)
      | (exact absurd rfl hkne.2.1)
      | (exact absurd rfl hkne.2.2.1)
      | (exact absurd rfl hkne.2.2.2)
      | (have hc := hcell 0 (by decide);
         rw [show reportHeaders.getD 0 "" = "report_id" from rfl, hnone] at hc;
         exact hc)
      | (have hc := hcell 1 (by decide);
         rw [show reportHeaders.getD 1 "" = "submitted_by" from rfl, hnone] at hc;
         exact hc)
      | (have hc := hcell 2 (by decide);
         rw [show reportHeaders.getD 2 "" = "title" from rfl, hnone] at hc;
         exact hc)
      | (have hc := hcell 3 (by decide);
         rw [show reportHeaders.getD 3 "" = "description" from rfl, hnone] at hc;
         exact hc)
      | (have hc := hcell 4 (by decide);
         rw [show reportHeaders.getD 4 "" = "priority" from rfl, hnone] at hc;
         exact hc)
      | (have hc := hcell 7 (by decide);
         rw [show reportHeaders.getD 7 "" = "created_at" from rfl, hnone] at hc;
         exact hc)

def reportsSheet1 : Sheet :=
  ⟨[reportHeaders,
    ["RPT-1", "Ali User", "Line 3 down", "Conveyor stopped", "high", "open", "",
     "2025-01-02 10:00", "", ""]]⟩

def storeReports : Store := ⟨⟨[]⟩, ⟨[]⟩, reportsSheet1, ⟨[]⟩⟩

/-- Witness for C6: a concrete triage of `RPT-1` to in_progress. -/
theorem triageUpdate_spec_witness :
    (triageUpdate storeReports "RPT-1" "in_progress" "Siti Technician" "" "2025-01-02 11:00").2 = true ∧
    recGetD ((triageUpdate storeReports "RPT-1" "in_progress" "Siti Technician" "" "2025-01-02 11:00").1.reports.getAllRecords.getD 0 []) "status" "" = "in_progress" ∧
    recGetD ((triageUpdate storeReports "RPT-1" "in_progress" "Siti Technician" "" "2025-01-02 11:00").1.reports.getAllRecords.getD 0 []) "title" ""
      = recGetD (storeReports.reports.getAllRecords.getD 0 []) "title" "" := by
  have h := (triageUpdate_spec storeReports "RPT-1" "in_progress" "Siti Technician"
    "" "2025-01-02 11:00" rfl (by decide)).2 0 (by decide)
  exact ⟨h.1, h.2.2.2.2.2.1, h.2.2.2.2.2.2.2.2.2 "title" (by decide) (by decide)⟩

def toHexDigit (n : Nat) : Char :=
  if n < 10 then Char.ofNat (48 + n) else Char.ofNat (87 + n)

/-- Four lowercase hex digits, as Python json.dumps renders \uXXXX. -/
def hex4 (n : Nat) : List Char :=
  [toHexDigit (n / 4096 % 16), toHexDigit (n / 256 % 16),
   toHexDigit (n / 16 % 16), toHexDigit (n % 16)]

/-- json.dumps escaping of one character (default ensure_ascii=True):
quote and backslash escaped, the five short escapes, all other control
characters and all non-ASCII as \uXXXX with surrogate pairs above the
BMP, printable ASCII kept literal. -/
def escapeChar (c : Char) : List Char :=
  if c = '"' then ['\\', '"']
  else if c = '\\' then ['\\', '\\']
  else if c = '\n' then ['\\', 'n']
  else if c = '\t' then ['\\', 't']
  else if c = '\r' then ['\\', 'r']
  else if c = Char.ofNat 8 then ['\\', 'b']
  else if c = Char.ofNat 12 then ['\\', 'f']
  else if c.toNat < 32 then '\\' :: 'u' :: hex4 c.toNat
  else if c.toNat < 127 then [c]
  else if c.toNat < 65536 then '\\' :: 'u' :: hex4 c.toNat
  else
    ('\\' :: 'u' :: hex4 (55296 + (c.toNat - 65536) / 1024)) ++
    ('\\' :: 'u' :: hex4 (56320 + (c.toNat - 65536) % 1024))

def escapeString : List Char → List Char
  | [] => []
  | c :: cs => escapeChar c ++ escapeString cs

/-- One `"key": "value"` member of the serialized payload object, with
json.dumps default item separator `": "`. -/
def encodeMember (k v : String) : List Char :=
  '"' :: (escapeString k.data ++ '"' :: ':' :: ' ' :: '"' ::
    (escapeString v.data ++ ['"']))

/-- The identifier payload carried by the QR code (spec section 6):
item_id, name and category. -/
structure Payload where
  item_id : String
  name : String
  category : String
deriving DecidableEq, Repr

/-- `generate_qr` (lines 127-132): the exact JSON text
`json.dumps(data)` produces for the payload dict — keys in insertion
order item_id, name, category, separators `", "` and `": "`.  The QR
raster image wrapped around this text is out of scope (spec section
1: the photographic decode routine is an external collaborator) and
is treated as the identity channel on the text. -/
def generate_qr (p : Payload) : String :=
  ⟨Char.ofNat 123 :: (encodeMember "item_id" p.item_id ++ ',' :: ' ' ::
    (encodeMember "name" p.name ++ ',' :: ' ' ::
      (encodeMember "category" p.category ++ [Char.ofNat 125])))⟩

def simpleEscape (e : Char) : Option Char :=
  if e = '"' then some '"'
  else if e = '\\' then some '\\'
  else if e = '/' then some '/'
  else if e = 'n' then some '\n'
  else if e = 't' then some '\t'
  else if e = 'r' then some '\r'
  else if e = 'b' then some (Char.ofNat 8)
  else if e = 'f' then some (Char.ofNat 12)
  else none

def fromHexDigit (c : Char) : Option Nat :=
  if 48 ≤ c.toNat ∧ c.toNat ≤ 57 then some (c.toNat - 48)
  else if 97 ≤ c.toNat ∧ c.toNat ≤ 102 then some (c.toNat - 87)
  else if 65 ≤ c.toNat ∧ c.toNat ≤ 70 then some (c.toNat - 55)
  else none

def hexVal4 (a b c d : Char) : Option Nat :=
  match fromHexDigit a, fromHexDigit b, fromHexDigit c, fromHexDigit d with
  | some x, some y, some z, some w => some (((x * 16 + y) * 16 + z) * 16 + w)
  | _, _, _, _ => none

def consParse (c : Char) :
    Option (List Char × List Char) → Option (List Char × List Char)
  | some (s, r) => some (c :: s, r)
  | none => none

/-- Four hex digits at the head of the input: their value and the
rest. -/
def take4Hex : List Char → Option (Nat × List Char)
  | a :: b :: c :: d :: r =>
    match hexVal4 a b c d with
    | some n => some (n, r)
    | none => none
  | _ => none

/-- Combine a high surrogate value with a following low surrogate
escape, as json.loads does for astral characters. -/
def combineSurrogate (n : Nat) : List Char → Option (Char × List Char)
  | e2 :: u2 :: r =>
    if e2 = '\\' ∧ u2 = 'u' then
      match take4Hex r with
      | some (m, r4) =>
        if 56320 ≤ m ∧ m < 57344 then
          some (Char.ofNat (65536 + (n - 55296) * 1024 + (m - 56320)), r4)
        else none
      | none => none
    else none
  | _ => none

/-- Decode a \uXXXX escape body (after the `u`): a plain BMP scalar,
or a surrogate pair.  A lone surrogate escape (which Python would keep
as an unpaired surrogate code unit, not representable in `Char`) is
rejected. -/
def decodeU (rest2 : List Char) : Option (Char × List Char) :=
  match take4Hex rest2 with
  | none => none
  | some (n, rest3) =>
    if n < 55296 ∨ 57344 ≤ n then some (Char.ofNat n, rest3)
    else if n < 56320 then combineSurrogate n rest3
    else none

/-- Decode one escape sequence (after the backslash): the decoded
character and the remaining input. -/
def decodeEscape : List Char → Option (Char × List Char)
  | [] => none
  | e :: rest2 =>
    match simpleEscape e with
    | some c2 => some (c2, rest2)
    | none => if e = 'u' then decodeU rest2 else none

/-- json.loads string-literal scanner in strict mode, for the body
after the opening quote: raw control characters rejected, escape
sequences decoded (via `decodeEscape`), the closing quote ends the
literal.  Fuelled by an upper bound on the number of decoded
characters; every call site passes the input length plus one, which
always suffices because each recursive call consumes at least one
input character. -/
def parseJStr : Nat → List Char → Option (List Char × List Char)
  | 0, _ => none
  | _ + 1, [] => none
  | fuel + 1, c :: rest =>
    if c = '"' then some ([], rest)
    else if c = '\\' then
      match decodeEscape rest with
      | some cr => consParse cr.1 (parseJStr fuel cr.2)
      | none => none
    else if c.toNat < 32 then none
    else consParse c (parseJStr fuel rest)

/-- The four JSON whitespace characters of json.loads. -/
def skipWs : List Char → List Char
  | [] => []
  | c :: r =>
    if c = ' ' ∨ c = '\t' ∨ c = '\n' ∨ c = '\r' then skipWs r else c :: r

/-- Members of a JSON object after the opening brace: a comma-separated
sequence of string-to-string pairs closed by a brace — the shape of
the identifier payload object.  Fuelled like `parseJStr`. -/
def parseMembers : Nat → List Char → Option (List (String × String) × List Char)
  | 0, _ => none
  | fuel + 1, l =>
    match l with
    | [] => none
    | c :: r =>
      if c = '"' then
        match parseJStr (r.length + 1) r with
        | none => none
        | some (key, r1) =>
          match skipWs r1 with
          | [] => none
          | c1 :: r2 =>
            if c1 = ':' then
              match skipWs r2 with
              | [] => none
              | c2 :: r3 =>
                if c2 = '"' then
                  match parseJStr (r3.length + 1) r3 with
                  | none => none
                  | some (val, r4) =>
                    match skipWs r4 with
                    | [] => none
                    | c3 :: r5 =>
                      if c3 = ',' then
                        match parseMembers fuel (skipWs r5) with
                        | some (ms, r6) =>
                          some ((String.mk key, String.mk val) :: ms, r6)
                        | none => none
                      else if c3 = Char.ofNat 125 then
                        some ([(String.mk key, String.mk val)], r5)
                      else none
                else none
            else none
      else none

/-- json.loads restricted to the payload shape: one JSON object whose
values are strings, surrounded by optional whitespace; any other
input is a decode failure (`none`). -/
def json_loads_obj (s : String) : Option (List (String × String)) :=
  match skipWs s.data with
  | [] => none
  | c :: r =>
    if c = Char.ofNat 123 then
      match skipWs r with
      | [] => none
      | c2 :: r2 =>
        if c2 = Char.ofNat 125 then
          if skipWs r2 = [] then some [] else none
        else
          match parseMembers ((c2 :: r2).length + 1) (c2 :: r2) with
          | some (ms, rest) => if skipWs rest = [] then some ms else none
          | none => none
    else none

/-- `decode_qr_from_upload` (lines 139-150): the pyzbar scan either
fails (`none`, unreadable image) or yields the embedded text, which
json.loads parses; the page then requires the `item_id` key and reads
`name` and `category`.  Every failure — unreadable image, malformed
JSON, missing keys — yields `none` (DecodeFailure): the Python body
catches all exceptions and returns None rather than throwing. -/
def decode_qr_from_upload (scan : Option String) : Option Payload :=
  match scan with
  | none => none
  | some s =>
    match json_loads_obj s with
    | none => none
    | some m =>
      match m.lookup "item_id", m.lookup "name", m.lookup "category" with
      | some i, some n, some c => some ⟨i, n, c⟩
      | _, _, _ => none

theorem string_eta (s : String) : String.mk s.data = s := rfl

theorem fromHex_toHex : ∀ x < 16, fromHexDigit (toHexDigit x) = some x := by
  decide

theorem hexVal4_hex4 (n : Nat) (h : n < 65536) :
    hexVal4 (toHexDigit (n / 4096 % 16)) (toHexDigit (n / 256 % 16))
      (toHexDigit (n / 16 % 16)) (toHexDigit (n % 16)) = some n := by
  have h1 := fromHex_toHex (n / 4096 % 16) (Nat.mod_lt _ (by norm_num))
  have h2 := fromHex_toHex (n / 256 % 16) (Nat.mod_lt _ (by norm_num))
  have h3 := fromHex_toHex (n / 16 % 16) (Nat.mod_lt _ (by norm_num))
  have h4 := fromHex_toHex (n % 16) (Nat.mod_lt _ (by norm_num))
  simp only [hexVal4, h1, h2, h3, h4]
  congr 1
  omega

set_option maxHeartbeats 1000000 in
theorem escapeString_length (s : List Char) :
    s.length ≤ (escapeString s).length := by
  induction s with
  | nil => simp [escapeString]
  | cons c cs ih =>
    have h : 0 < (escapeChar c).length := by
      unfold escapeChar
      split_ifs <;> simp [hex4]
    simp only [escapeString, List.length_append, List.length_cons]
    omega

theorem char_toNat_valid (c : Char) :
    c.toNat < 55296 ∨ (57344 ≤ c.toNat ∧ c.toNat < 1114112) := c.valid

theorem decodeEscape_simple (e c2 : Char) (r : List Char)
    (h : simpleEscape e = some c2) : decodeEscape (e :: r) = some (c2, r) := by
  simp only [decodeEscape, h]

theorem decodeEscape_u (r : List Char) : decodeEscape ('u' :: r) = decodeU r := by
  have hse : simpleEscape 'u' = none := rfl
  simp only [decodeEscape, hse, if_true]

theorem take4Hex_hex4 (n : Nat) (h : n < 65536) (r : List Char) :
    take4Hex (hex4 n ++ r) = some (n, r) := by
  simp only [hex4, List.cons_append, List.nil_append, take4Hex, hexVal4_hex4 n h]

theorem decodeU_bmp (n : Nat) (h : n < 65536) (hval : n < 55296 ∨ 57344 ≤ n)
    (r : List Char) : decodeU (hex4 n ++ r) = some (Char.ofNat n, r) := by
  simp only [decodeU, take4Hex_hex4 n h r, hval, if_true]

theorem decodeU_astral (n m : Nat) (hn1 : 55296 ≤ n) (hn2 : n < 56320)
    (hm1 : 56320 ≤ m) (hm2 : m < 57344) (r : List Char) :
    decodeU (hex4 n ++ '\\' :: 'u' :: (hex4 m ++ r))
      = some (Char.ofNat (65536 + (n - 55296) * 1024 + (m - 56320)), r) := by
  have hcond1 : ¬(n < 55296 ∨ 57344 ≤ n) := by omega
  simp only [decodeU, take4Hex_hex4 n (by omega), if_neg hcond1, if_pos hn2]
  simp only [combineSurrogate, and_self, if_true]
  simp only [take4Hex_hex4 m (by omega)]
  rw [if_pos ⟨hm1, hm2⟩]

theorem parseJStr_quote (f : Nat) (rest : List Char) :
    parseJStr (f + 1) ('"' :: rest) = some ([], rest) := by
  simp only [parseJStr, if_true]

theorem parseJStr_esc (f : Nat) (rest rest2 : List Char) (c2 : Char)
    (h : decodeEscape rest = some (c2, rest2)) :
    parseJStr (f + 1) ('\\' :: rest) = consParse c2 (parseJStr f rest2) := by
  simp only [parseJStr, h, if_neg (show ¬('\\' : Char) = '"' by decide)]
  rfl

theorem parseJStr_lit (f : Nat) (c : Char) (rest : List Char)
    (h1 : ¬c = '"') (h2 : ¬c = '\\') (h8 : ¬c.toNat < 32) :
    parseJStr (f + 1) (c :: rest) = consParse c (parseJStr f rest) := by
  simp only [parseJStr, if_neg h1, if_neg h2, if_neg h8]

theorem parseJStr_escapeString (s : List Char) :
    ∀ (rest : List Char) (fuel : Nat), s.length + 1 ≤ fuel →
      parseJStr fuel (escapeString s ++ '"' :: rest) = some (s, rest) := by
  induction s with
  | nil =>
    intro rest fuel hf
    obtain ⟨f, rfl⟩ : ∃ f, fuel = f + 1 := ⟨fuel - 1, by omega⟩
    exact parseJStr_quote f rest
  | cons c cs ih =>
    intro rest fuel hf
    obtain ⟨f, rfl⟩ : ∃ f, fuel = f + 1 := ⟨fuel - 1, by omega⟩
    have hf' : cs.length + 1 ≤ f := by
      simp only [List.length_cons] at hf; omega
    have hih := ih rest f hf'
    show parseJStr (f + 1) ((escapeChar c ++ escapeString cs) ++ '"' :: rest)
      = some (c :: cs, rest)
    rw [List.append_assoc]
    by_cases h1 : c = '"'
    · subst h1
      rw [show escapeChar '"' = ['\\', '"'] from rfl, List.cons_append,
        List.cons_append, List.nil_append,
        parseJStr_esc f _ _ _ (decodeEscape_simple '"' '"' _ rfl), hih]
      rfl
    by_cases h2 : c = '\\'
    · subst h2
      rw [show escapeChar '\\' = ['\\', '\\'] from rfl, List.cons_append,
        List.cons_append, List.nil_append,
        parseJStr_esc f _ _ _ (decodeEscape_simple '\\' '\\' _ rfl), hih]
      rfl
    by_cases h3 : c = '\n'
    · subst h3
      rw [show escapeChar '\n' = ['\\', 'n'] from rfl, List.cons_append,
        List.cons_append, List.nil_append,
        parseJStr_esc f _ _ _ (decodeEscape_simple 'n' '\n' _ rfl), hih]
      rfl
    by_cases h4 : c = '\t'
    · subst h4
      rw [show escapeChar '\t' = ['\\', 't'] from rfl, List.cons_append,
        List.cons_append, List.nil_append,
        parseJStr_esc f _ _ _ (decodeEscape_simple 't' '\t' _ rfl), hih]
      rfl
    by_cases h5 : c = '\r'
    · subst h5
      rw [show escapeChar '\r' = ['\\', 'r'] from rfl, List.cons_append,
        List.cons_append, List.nil_append,
        parseJStr_esc f _ _ _ (decodeEscape_simple 'r' '\r' _ rfl), hih]
      rfl
    by_cases h6 : c = Char.ofNat 8
    · subst h6
      rw [show escapeChar (Char.ofNat 8) = ['\\', 'b'] from by decide,
        List.cons_append, List.cons_append, List.nil_append,
        parseJStr_esc f _ _ _ (decodeEscape_simple 'b' (Char.ofNat 8) _ rfl), hih]
      rfl
    by_cases h7 : c = Char.ofNat 12
    · subst h7
      rw [show escapeChar (Char.ofNat 12) = ['\\', 'f'] from by decide,
        List.cons_append, List.cons_append, List.nil_append,
        parseJStr_esc f _ _ _ (decodeEscape_simple 'f' (Char.ofNat 12) _ rfl), hih]
      rfl
    by_cases h8 : c.toNat < 32
    · have hec : escapeChar c = '\\' :: 'u' :: hex4 c.toNat := by
        simp only [escapeChar, if_neg h1, if_neg h2, if_neg h3, if_neg h4,
          if_neg h5, if_neg h6, if_neg h7, if_pos h8]
      have hdec : decodeEscape ('u' :: (hex4 c.toNat ++ (escapeString cs ++ '"' :: rest)))
          = some (Char.ofNat c.toNat, escapeString cs ++ '"' :: rest) := by
        rw [decodeEscape_u, decodeU_bmp c.toNat (by omega) (Or.inl (by omega))]
      rw [hec, List.cons_append, List.cons_append,
        parseJStr_esc f _ _ _ hdec, hih, Char.ofNat_toNat]
      rfl
    by_cases h9 : c.toNat < 127
    · have hec : escapeChar c = [c] := by
        simp only [escapeChar, if_neg h1, if_neg h2, if_neg h3, if_neg h4,
          if_neg h5, if_neg h6, if_neg h7, if_neg h8, if_pos h9]
      rw [hec, List.cons_append, List.nil_append,
        parseJStr_lit f c _ h1 h2 h8, hih]
      rfl
    by_cases h10 : c.toNat < 65536
    · have hec : escapeChar c = '\\' :: 'u' :: hex4 c.toNat := by
        simp only [escapeChar, if_neg h1, if_neg h2, if_neg h3, if_neg h4,
          if_neg h5, if_neg h6, if_neg h7, if_neg h8, if_neg h9, if_pos h10]
      have hval : c.toNat < 55296 ∨ 57344 ≤ c.toNat := by
        rcases char_toNat_valid c with h | h
        · exact Or.inl h
        · exact Or.inr h.1
      have hdec : decodeEscape ('u' :: (hex4 c.toNat ++ (escapeString cs ++ '"' :: rest)))
          = some (Char.ofNat c.toNat, escapeString cs ++ '"' :: rest) := by
        rw [decodeEscape_u, decodeU_bmp c.toNat (by omega) hval]
      rw [hec, List.cons_append, List.cons_append,
        parseJStr_esc f _ _ _ hdec, hih, Char.ofNat_toNat]
      rfl
    · have hlt : c.toNat < 1114112 := by
        rcases char_toNat_valid c with h | h
        · omega
        · exact h.2
      have hec : escapeChar c
          = ('\\' :: 'u' :: hex4 (55296 + (c.toNat - 65536) / 1024)) ++
            ('\\' :: 'u' :: hex4 (56320 + (c.toNat - 65536) % 1024)) := by
        simp only [escapeChar, if_neg h1, if_neg h2, if_neg h3, if_neg h4,
          if_neg h5, if_neg h6, if_neg h7, if_neg h8, if_neg h9, if_neg h10]
      have hchar : 65536 + (55296 + (c.toNat - 65536) / 1024 - 55296) * 1024 +
          (56320 + (c.toNat - 65536) % 1024 - 56320) = c.toNat := by omega
      have hdec : decodeEscape ('u' :: (hex4 (55296 + (c.toNat - 65536) / 1024) ++
            ('\\' :: 'u' :: (hex4 (56320 + (c.toNat - 65536) % 1024) ++
              (escapeString cs ++ '"' :: rest)))))
          = some (Char.ofNat c.toNat, escapeString cs ++ '"' :: rest) := by
        rw [decodeEscape_u,
          decodeU_astral (55296 + (c.toNat - 65536) / 1024)
            (56320 + (c.toNat - 65536) % 1024) (by omega) (by omega)
            (by omega) (by omega), hchar]
      rw [hec]
      rw [show (('\\' :: 'u' :: hex4 (55296 + (c.toNat - 65536) / 1024)) ++
            ('\\' :: 'u' :: hex4 (56320 + (c.toNat - 65536) % 1024))) ++
            (escapeString cs ++ '"' :: rest)
          = '\\' :: 'u' :: (hex4 (55296 + (c.toNat - 65536) / 1024) ++
            ('\\' :: 'u' :: (hex4 (56320 + (c.toNat - 65536) % 1024) ++
              (escapeString cs ++ '"' :: rest))))
        from by simp [List.cons_append, List.append_assoc]]
      rw [parseJStr_esc f _ _ _ hdec, hih, Char.ofNat_toNat]
      rfl

theorem string_data_mk (l : List Char) : (String.mk l).data = l := rfl

theorem skipWs_cons_of (c : Char) (r : List Char)
    (h : ¬(c = ' ' ∨ c = '\t' ∨ c = '\n' ∨ c = '\r')) :
    skipWs (c :: r) = c :: r := by
  simp only [skipWs, if_neg h]

theorem skipWs_space (r : List Char) : skipWs (' ' :: r) = skipWs r := by
  simp only [skipWs]
  rw [if_pos (Or.inl trivial)]

theorem parseMembers_cons (f : Nat) (kd vd tail : List Char) :
    parseMembers (f + 1)
      ('"' :: (escapeString kd ++ '"' :: ':' :: ' ' :: '"' ::
        (escapeString vd ++ '"' :: ',' :: ' ' :: tail)))
      = match parseMembers f (skipWs tail) with
        | some (ms, r6) => some ((String.mk kd, String.mk vd) :: ms, r6)
        | none => none := by
  have h1 : kd.length + 1
      ≤ (escapeString kd ++ '"' :: ':' :: ' ' :: '"' ::
          (escapeString vd ++ '"' :: ',' :: ' ' :: tail)).length + 1 := by
    have := escapeString_length kd
    simp only [List.length_append, List.length_cons]
    omega
  have h2 : vd.length + 1
      ≤ (escapeString vd ++ '"' :: ',' :: ' ' :: tail).length + 1 := by
    have := escapeString_length vd
    simp only [List.length_append, List.length_cons]
    omega
  simp only [parseMembers, if_true,
    parseJStr_escapeString kd (':' :: ' ' :: '"' ::
      (escapeString vd ++ '"' :: ',' :: ' ' :: tail)) _ h1,
    skipWs_cons_of ':' _ (by decide),
    skipWs_space,
    skipWs_cons_of '"' _ (by decide),
    parseJStr_escapeString vd (',' :: ' ' :: tail) _ h2,
    skipWs_cons_of ',' _ (by decide)]

theorem parseMembers_last (f : Nat) (kd vd tail : List Char) :
    parseMembers (f + 1)
      ('"' :: (escapeString kd ++ '"' :: ':' :: ' ' :: '"' ::
        (escapeString vd ++ '"' :: Char.ofNat 125 :: tail)))
      = some ([(String.mk kd, String.mk vd)], tail) := by
  have h1 : kd.length + 1
      ≤ (escapeString kd ++ '"' :: ':' :: ' ' :: '"' ::
          (escapeString vd ++ '"' :: Char.ofNat 125 :: tail)).length + 1 := by
    have := escapeString_length kd
    simp only [List.length_append, List.length_cons]
    omega
  have h2 : vd.length + 1
      ≤ (escapeString vd ++ '"' :: Char.ofNat 125 :: tail).length + 1 := by
    have := escapeString_length vd
    simp only [List.length_append, List.length_cons]
    omega
  simp only [parseMembers, if_true,
    parseJStr_escapeString kd (':' :: ' ' :: '"' ::
      (escapeString vd ++ '"' :: Char.ofNat 125 :: tail)) _ h1,
    skipWs_cons_of ':' _ (by decide),
    skipWs_space,
    skipWs_cons_of '"' _ (by decide),
    parseJStr_escapeString vd (Char.ofNat 125 :: tail) _ h2,
    skipWs_cons_of (Char.ofNat 125) _ (by decide),
    if_neg (show ¬(Char.ofNat 125 = ',') by decide)]

theorem skipWs_lbrace (r : List Char) :
    skipWs (Char.ofNat 123 :: r) = Char.ofNat 123 :: r :=
  skipWs_cons_of _ _ (by decide)

theorem skipWs_quote (r : List Char) : skipWs ('"' :: r) = '"' :: r :=
  skipWs_cons_of _ _ (by decide)

theorem skipWs_nil : skipWs [] = [] := rfl

theorem parseMembers_three (f : Nat) (k1 v1 k2 v2 k3 v3 tail : List Char) :
    parseMembers (f + 3)
      ('"' :: (escapeString k1 ++ '"' :: ':' :: ' ' :: '"' ::
        (escapeString v1 ++ '"' :: ',' :: ' ' :: '"' ::
          (escapeString k2 ++ '"' :: ':' :: ' ' :: '"' ::
            (escapeString v2 ++ '"' :: ',' :: ' ' :: '"' ::
              (escapeString k3 ++ '"' :: ':' :: ' ' :: '"' ::
                (escapeString v3 ++ '"' :: Char.ofNat 125 :: tail)))))))
      = some ([(String.mk k1, String.mk v1), (String.mk k2, String.mk v2),
               (String.mk k3, String.mk v3)], tail) := by
  rw [show f + 3 = (f + 2) + 1 from rfl, parseMembers_cons]
  rw [skipWs_quote]
  rw [show f + 2 = (f + 1) + 1 from rfl, parseMembers_cons]
  rw [skipWs_quote]
  rw [parseMembers_last]

theorem parseMembers_three' (f : Nat) (hf : 3 ≤ f)
    (k1 v1 k2 v2 k3 v3 tail : List Char) :
    parseMembers f
      ('"' :: (escapeString k1 ++ '"' :: ':' :: ' ' :: '"' ::
        (escapeString v1 ++ '"' :: ',' :: ' ' :: '"' ::
          (escapeString k2 ++ '"' :: ':' :: ' ' :: '"' ::
            (escapeString v2 ++ '"' :: ',' :: ' ' :: '"' ::
              (escapeString k3 ++ '"' :: ':' :: ' ' :: '"' ::
                (escapeString v3 ++ '"' :: Char.ofNat 125 :: tail)))))))
      = some ([(String.mk k1, String.mk v1), (String.mk k2, String.mk v2),
               (String.mk k3, String.mk v3)], tail) := by
  obtain ⟨g, rfl⟩ : ∃ g, f = g + 3 := ⟨f - 3, by omega⟩
  exact parseMembers_three g k1 v1 k2 v2 k3 v3 tail

/-- C4: decoding the encoding of any identifier payload yields the
payload again — `decode(encode(p)) = p` for every payload, every
field an arbitrary string — and decode renders failure (unreadable
scan, unrecognized text) as `none` (DecodeFailure), never an
exception: the model is a total function into `Option`. -/
theorem decode_encode_roundtrip (p : Payload) :
    decode_qr_from_upload (some (generate_qr p)) = some p ∧
    decode_qr_from_upload (some "not a payload") = none ∧
    decode_qr_from_upload none = none := by
  refine ⟨?_, by decide, rfl⟩
  have hjson : json_loads_obj (generate_qr p)
      = some [("item_id", p.item_id), ("name", p.name), ("category", p.category)] := by
    simp only [generate_qr, json_loads_obj, string_data_mk, encodeMember,
      List.cons_append, List.append_assoc, List.nil_append, skipWs_lbrace,
      skipWs_quote, List.length_cons, if_true, if_false,
      (show ¬('"' = Char.ofNat 125) by decide)]
    rw [parseMembers_three' _ (by
      simp only [List.length_cons, List.length_append]
      omega)]
    simp only [skipWs_nil, if_true, string_eta]
  have hb1 : (("name" : String) == "item_id") = false := by decide
  have hb2 : (("category" : String) == "item_id") = false := by decide
  have hb3 : (("category" : String) == "name") = false := by decide
  simp only [decode_qr_from_upload, hjson, List.lookup_cons_self,
    List.lookup_cons, hb1, hb2, hb3]

end TechTrack
